import Mathlib

/-!
Verification of the Trackmania Cache Hash Generator
(`src/cache_hash_generator.py`) against its natural-language specification.

Strings are embedded as lists of Unicode code points (`List Nat`); byte
strings as lists of naturals below 256.  Pure functions of the program are
translated directly; GUI/filesystem effects are made explicit (state in,
state plus performed writes and shown messages out).
-/

/-- Code points of a Lean string literal, used to transcribe the Python
string literals of the source. -/
def str (s : String) : List Nat := s.data.map Char.toNat

/-- Concatenation of `f` applied to every element (Python `"".join(map f xs)`
with string results). -/
def catMap (f : Nat → List Nat) : List Nat → List Nat
  | [] => []
  | c :: rest => f c ++ catMap f rest

/- ============================================================
   MD5 (RFC 1321), as used by `hashlib.md5` in `md5_and_reverse_bytes`.
   Words are naturals reduced modulo 2^32.
   ============================================================ -/

def w32 (n : Nat) : Nat := n % 4294967296

def add32 (a b : Nat) : Nat := (a + b) % 4294967296

def not32 (a : Nat) : Nat := 4294967295 - a % 4294967296

def rotl32 (x s : Nat) : Nat := ((x <<< s) ||| (x >>> (32 - s))) % 4294967296

def md5F (b c d : Nat) : Nat := (b &&& c) ||| (not32 b &&& d)

def md5G (b c d : Nat) : Nat := (d &&& b) ||| (not32 d &&& c)

def md5H (b c d : Nat) : Nat := b ^^^ c ^^^ d

def md5I (b c d : Nat) : Nat := c ^^^ (b ||| not32 d)

/-- Per-step sine-derived constants of MD5. -/
def md5K : List Nat :=
  [0xd76aa478, 0xe8c7b756, 0x242070db, 0xc1bdceee,
   0xf57c0faf, 0x4787c62a, 0xa8304613, 0xfd469501,
   0x698098d8, 0x8b44f7af, 0xffff5bb1, 0x895cd7be,
   0x6b901122, 0xfd987193, 0xa679438e, 0x49b40821,
   0xf61e2562, 0xc040b340, 0x265e5a51, 0xe9b6c7aa,
   0xd62f105d, 0x02441453, 0xd8a1e681, 0xe7d3fbc8,
   0x21e1cde6, 0xc33707d6, 0xf4d50d87, 0x455a14ed,
   0xa9e3e905, 0xfcefa3f8, 0x676f02d9, 0x8d2a4c8a,
   0xfffa3942, 0x8771f681, 0x6d9d6122, 0xfde5380c,
   0xa4beea44, 0x4bdecfa9, 0xf6bb4b60, 0xbebfbc70,
   0x289b7ec6, 0xeaa127fa, 0xd4ef3085, 0x04881d05,
   0xd9d4d039, 0xe6db99e5, 0x1fa27cf8, 0xc4ac5665,
   0xf4292244, 0x432aff97, 0xab9423a7, 0xfc93a039,
   0x655b59c3, 0x8f0ccc92, 0xffeff47d, 0x85845dd1,
   0x6fa87e4f, 0xfe2ce6e0, 0xa3014314, 0x4e0811a1,
   0xf7537e82, 0xbd3af235, 0x2ad7d2bb, 0xeb86d391]

/-- Per-step left-rotation amounts of MD5. -/
def md5S : List Nat :=
  [7, 12, 17, 22, 7, 12, 17, 22, 7, 12, 17, 22, 7, 12, 17, 22,
   5, 9, 14, 20, 5, 9, 14, 20, 5, 9, 14, 20, 5, 9, 14, 20,
   4, 11, 16, 23, 4, 11, 16, 23, 4, 11, 16, 23, 4, 11, 16, 23,
   6, 10, 15, 21, 6, 10, 15, 21, 6, 10, 15, 21, 6, 10, 15, 21]

/-- One of the 64 MD5 steps, acting on the running state `(a, b, c, d)`;
`m` is the current 16-word message block. -/
def md5Step (m : List Nat) (st : Nat × Nat × Nat × Nat) (i : Nat) :
    Nat × Nat × Nat × Nat :=
  let (a, b, c, d) := st
  let f :=
    if i < 16 then md5F b c d
    else if i < 32 then md5G b c d
    else if i < 48 then md5H b c d
    else md5I b c d
  let g :=
    if i < 16 then i
    else if i < 32 then (5 * i + 1) % 16
    else if i < 48 then (3 * i + 5) % 16
    else (7 * i) % 16
  let tmp := add32 (add32 (add32 a f) (md5K.getD i 0)) (m.getD g 0)
  (d, add32 b (rotl32 tmp (md5S.getD i 0)), b, c)

/-- Processing of one 16-word block: run the 64 steps, then add the
result back into the chaining state. -/
def md5Block (st : Nat × Nat × Nat × Nat) (m : List Nat) :
    Nat × Nat × Nat × Nat :=
  let (a, b, c, d) := (List.range 64).foldl (md5Step m) st
  (add32 st.1 a, add32 st.2.1 b, add32 st.2.2.1 c, add32 st.2.2.2 d)

/-- Little-endian byte rendering of a word, `n` bytes wide. -/
def leBytes : Nat → Nat → List Nat
  | 0, _ => []
  | n + 1, v => v % 256 :: leBytes n (v / 256)

/-- MD5 padding: a `0x80` byte, zeros to 56 mod 64, then the bit length
as 8 little-endian bytes. -/
def md5Pad (msg : List Nat) : List Nat :=
  msg ++ [128] ++ List.replicate ((120 - (msg.length + 1) % 64) % 64) 0
      ++ leBytes 8 (8 * msg.length)

/-- Grouping of four consecutive bytes into little-endian 32-bit words. -/
def toWords : List Nat → List Nat
  | b0 :: b1 :: b2 :: b3 :: rest =>
      (b0 + 256 * b1 + 65536 * b2 + 16777216 * b3) :: toWords rest
  | _ => []

/-- Grouping of a byte list into 16-word blocks, with fuel bounding the
number of blocks so that the recursion is structural. -/
def toBlocksF : Nat → List Nat → List (List Nat)
  | 0, _ => []
  | _, [] => []
  | fuel + 1, l => toWords (l.take 64) :: toBlocksF fuel (l.drop 64)

/-- Grouping of a byte list into 16-word blocks (the input is always a
multiple of 64 bytes after padding). -/
def toBlocks (l : List Nat) : List (List Nat) := toBlocksF l.length l

/-- MD5 digest of a byte string, as its 16 digest bytes. -/
def md5Bytes (msg : List Nat) : List Nat :=
  let (a, b, c, d) :=
    (toBlocks (md5Pad msg)).foldl md5Block
      (0x67452301, 0xefcdab89, 0x98badcfe, 0x10325476)
  leBytes 4 a ++ leBytes 4 b ++ leBytes 4 c ++ leBytes 4 d

/-- Uppercase hex digit character (code point) for a value below 16. -/
def hexUpperDigit (n : Nat) : Nat := if n < 10 then 48 + n else 55 + n

/-- Uppercase hex string (code points) of a byte list, as produced by
`hexdigest().upper()` and by `bytes.hex().upper()`. -/
def bytesToHexUpper (bs : List Nat) : List Nat :=
  catMap (fun b => [hexUpperDigit (b / 16), hexUpperDigit (b % 16)]) bs

/-- Numeric value of one hex digit character, as accepted by
`bytes.fromhex` (the program only passes uppercase digits). -/
def hexCharVal (c : Nat) : Nat :=
  if 48 ≤ c ∧ c ≤ 57 then c - 48
  else if 65 ≤ c ∧ c ≤ 70 then c - 55
  else if 97 ≤ c ∧ c ≤ 102 then c - 87
  else 0

/-- Byte list parsed from a hex string, as `bytes.fromhex`. -/
def fromHexStr : List Nat → List Nat
  | h :: l :: rest => (hexCharVal h * 16 + hexCharVal l) :: fromHexStr rest
  | _ => []

/-- Translation of `md5_and_reverse_bytes` (source lines 77-85): the
uppercase MD5 hex digest of the data, paired with the uppercase hex of the
byte-reversed digest (`bytes.fromhex(md5)[::-1].hex().upper()`). -/
def md5_and_reverse_bytes (data : List Nat) : List Nat × List Nat :=
  let md5 := bytesToHexUpper (md5Bytes data)
  (md5, bytesToHexUpper (fromHexStr md5).reverse)

/- ============================================================
   Basename encoding: `encode_name` (source lines 94-98) uses
   `urllib.parse.quote(name, safe="")` when the name contains a
   character with code point above 127.  `quote` encodes the UTF-8
   bytes of the string, leaving only the always-safe bytes
   (ASCII letters, digits, `_.-~`) unescaped.
   ============================================================ -/

/-- UTF-8 bytes of one Unicode scalar value. -/
def utf8EncodeChar (c : Nat) : List Nat :=
  if c < 128 then [c]
  else if c < 2048 then [192 + c / 64, 128 + c % 64]
  else if c < 65536 then [224 + c / 4096, 128 + c / 64 % 64, 128 + c % 64]
  else [240 + c / 262144, 128 + c / 4096 % 64, 128 + c / 64 % 64, 128 + c % 64]

/-- UTF-8 bytes of a string (list of code points), as Python's
`s.encode("utf-8")`. -/
def utf8Encode (s : List Nat) : List Nat := catMap utf8EncodeChar s

/-- Bytes never escaped by `urllib.parse.quote`: ASCII letters, digits,
and `_.-~` (the `_ALWAYS_SAFE` set; `safe=""` adds nothing to it). -/
def isAlwaysSafe (b : Nat) : Bool :=
  decide ((65 ≤ b ∧ b ≤ 90) ∨ (97 ≤ b ∧ b ≤ 122) ∨ (48 ≤ b ∧ b ≤ 57)
    ∨ b = 45 ∨ b = 46 ∨ b = 95 ∨ b = 126)

/-- Percent-encoding of one byte: safe bytes pass through, all others
become `%XX` with uppercase hex. -/
def pctEncodeByte (b : Nat) : List Nat :=
  if isAlwaysSafe b then [b]
  else [37, hexUpperDigit (b / 16), hexUpperDigit (b % 16)]

/-- Translation of `urllib.parse.quote(name, safe="")`: percent-encode
every non-always-safe byte of the UTF-8 encoding. -/
def quoteAll (name : List Nat) : List Nat := catMap pctEncodeByte (utf8Encode name)

/-- Translation of `encode_name` (source lines 94-98): quote the whole
name exactly when some character has code point above 127
(`any(ord(c) > 127 for c in name)`), otherwise return it unchanged. -/
def encode_name (name : List Nat) : List Nat :=
  if name.any (fun c => decide (127 < c)) then quoteAll name else name

/- ============================================================
   Standard URL-decoding and UTF-8 decoding, used to state the
   losslessness property of the spec (claim about decoding the
   encoded result).  These model `urllib.parse.unquote` on ASCII
   input: replace each valid `%XX` escape by its byte, then decode
   the byte sequence as UTF-8.
   ============================================================ -/

/-- Recognizer for hex digit characters. -/
def isHexDigit (c : Nat) : Bool :=
  decide ((48 ≤ c ∧ c ≤ 57) ∨ (65 ≤ c ∧ c ≤ 70) ∨ (97 ≤ c ∧ c ≤ 102))

/-- Percent-decoding over code points, fuelled so that the recursion is
structural (one unit of fuel per emitted output item suffices): each `%`
followed by two hex digits becomes the corresponding byte; everything
else stands for its own byte value. -/
def pctDecodeF : Nat → List Nat → List Nat
  | 0, _ => []
  | _, [] => []
  | fuel + 1, c :: rest =>
    if c = 37 then
      match rest with
      | h :: l :: rest2 =>
        if isHexDigit h ∧ isHexDigit l then
          (hexCharVal h * 16 + hexCharVal l) :: pctDecodeF fuel rest2
        else c :: pctDecodeF fuel rest
      | _ => c :: pctDecodeF fuel rest
    else c :: pctDecodeF fuel rest

/-- Percent-decoding of a full string; the string's length is always
enough fuel. -/
def pctDecode (s : List Nat) : List Nat := pctDecodeF s.length s

/-- Recognizer for UTF-8 continuation bytes. -/
def isCont (b : Nat) : Bool := decide (128 ≤ b ∧ b < 192)

/-- Strict UTF-8 decoding of a byte list into code points, rejecting
truncated sequences, overlong forms, surrogates and out-of-range values
(as Python's `bytes.decode("utf-8")`); fuelled so that the recursion is
structural (one unit of fuel per decoded character suffices). -/
def utf8DecodeF : Nat → List Nat → Option (List Nat)
  | _, [] => some []
  | 0, _ :: _ => none
  | fuel + 1, b :: rest =>
    if b < 128 then (utf8DecodeF fuel rest).map (b :: ·)
    else if 192 ≤ b ∧ b < 224 then
      if 1 ≤ rest.length ∧ isCont (rest.getD 0 0) then
        let c := (b - 192) * 64 + (rest.getD 0 0 - 128)
        if 128 ≤ c then (utf8DecodeF fuel (rest.drop 1)).map (c :: ·) else none
      else none
    else if 224 ≤ b ∧ b < 240 then
      if 2 ≤ rest.length ∧ isCont (rest.getD 0 0) ∧ isCont (rest.getD 1 0) then
        let c := (b - 224) * 4096 + (rest.getD 0 0 - 128) * 64 + (rest.getD 1 0 - 128)
        if 2048 ≤ c ∧ ¬(55296 ≤ c ∧ c ≤ 57343) then
          (utf8DecodeF fuel (rest.drop 2)).map (c :: ·)
        else none
      else none
    else if 240 ≤ b ∧ b < 248 then
      if 3 ≤ rest.length ∧ isCont (rest.getD 0 0) ∧ isCont (rest.getD 1 0)
          ∧ isCont (rest.getD 2 0) then
        let c := (b - 240) * 262144 + (rest.getD 0 0 - 128) * 4096
                   + (rest.getD 1 0 - 128) * 64 + (rest.getD 2 0 - 128)
        if 65536 ≤ c ∧ c < 1114112 then
          (utf8DecodeF fuel (rest.drop 3)).map (c :: ·)
        else none
      else none
    else none

/-- Strict UTF-8 decoding of a full byte list; the list's length is
always enough fuel. -/
def utf8Decode (bs : List Nat) : Option (List Nat) := utf8DecodeF bs.length bs

/-- URL-decoding of a (quoted, hence ASCII) string back to a string:
percent-decode to bytes, then UTF-8 decode. -/
def unquoteAll (s : List Nat) : Option (List Nat) := utf8Decode (pctDecode s)

/-- Unicode scalar values: what a well-formed Python text string holds
per code point (below 0x110000 and not a surrogate). -/
def IsScalar (c : Nat) : Prop := c < 1114112 ∧ ¬(55296 ≤ c ∧ c ≤ 57343)

instance (c : Nat) : Decidable (IsScalar c) := by
  unfold IsScalar; infer_instance

/- ============================================================
   Config handling (source lines 39-71).  The config file is modelled
   as its list of lines (`none` when the file does not exist); which
   paths are currently valid directories is a parameter
   `isDir : List Nat → Bool` standing for `os.path.isdir`.
   ============================================================ -/

/-- ASCII whitespace, as stripped by Python's `str.strip()`. -/
def isWs (c : Nat) : Bool := decide (c = 9 ∨ c = 10 ∨ c = 11 ∨ c = 12 ∨ c = 13 ∨ c = 32)

/-- Translation of Python `line.strip()`: drop whitespace from both ends. -/
def strip (l : List Nat) : List Nat :=
  ((l.dropWhile isWs).reverse.dropWhile isWs).reverse

/-- Translation of Python `s.split("=", 1)` under the guarantee that `=`
occurs: the part before the first `=` (code 61) and everything after it. -/
def splitFirstEq : List Nat → List Nat × List Nat
  | [] => ([], [])
  | c :: rest =>
    if c = 61 then ([], rest)
    else
      let (k, v) := splitFirstEq rest
      (c :: k, v)

/-- Config dictionaries: insertion-ordered key/value lists with Python
`dict` assignment semantics (update in place if the key exists,
otherwise append). -/
def dictSet (key : List Nat) (val : Option (List Nat)) :
    List (List Nat × Option (List Nat)) → List (List Nat × Option (List Nat))
  | [] => [(key, val)]
  | (k, v) :: rest =>
    if k = key then (k, val) :: rest else (k, v) :: dictSet key val rest

/-- Initial config dict of `load_config`:
`{"save_path": None, "cache_path": None}`. -/
def initConfig : List (List Nat × Option (List Nat)) :=
  [(str "save_path", none), (str "cache_path", none)]

/-- One line of `load_config`'s loop: parse a `key=value` line and keep
the entry only when its value is a currently valid directory. -/
def loadStep (isDir : List Nat → Bool)
    (cfg : List (List Nat × Option (List Nat))) (line : List Nat) :
    List (List Nat × Option (List Nat)) :=
  if 61 ∈ line then
    let (k, v) := splitFirstEq (strip line)
    if isDir v then dictSet k (some v) cfg else cfg
  else cfg

/-- Translation of `load_config` (source lines 39-53): parse `key=value`
lines, keeping an entry only when its value is a currently valid
directory. -/
def load_config (isDir : List Nat → Bool) (file : Option (List (List Nat))) :
    List (List Nat × Option (List Nat)) :=
  match file with
  | none => initConfig
  | some lines => lines.foldl (loadStep isDir) initConfig

/-- Lines written back by `save_config_value`: one `key=value` line per
entry whose value is truthy (present and non-empty). -/
def configLines (cfg : List (List Nat × Option (List Nat))) : List (List Nat) :=
  cfg.filterMap (fun kv =>
    match kv.2 with
    | some v => if v = [] then none else some (kv.1 ++ [61] ++ v)
    | none => none)

/-- Translation of `save_config_value` (source lines 55-65): reload the
config, update the one key, and rewrite every truthy entry. -/
def save_config_value (isDir : List Nat → Bool) (key value : List Nat)
    (file : Option (List (List Nat))) : List (List Nat) :=
  configLines (dictSet key (some value) (load_config isDir file))

/-- Value stored under a key in a config dict (`config.get(key)` /
`config[key]`). -/
def getConfig (cfg : List (List Nat × Option (List Nat))) (key : List Nat) :
    Option (List Nat) :=
  match cfg.find? (fun kv => kv.1 == key) with
  | some kv => kv.2
  | none => none

/- ============================================================
   Naming Engine and application state (source lines 24-30, 139-229).
   ============================================================ -/

/-- The five cache path categories of `PATH_MAP` (source lines 24-30). -/
inductive PathCategory
  | images
  | sounds
  | music
  | mods
  | advert
deriving DecidableEq

/-- Translation of `PATH_MAP` (source lines 24-30): the fixed encoded
cache subpath per category, backslashes pre-encoded as `%5c`. -/
def PATH_MAP : PathCategory → List Nat
  | .images => str "Skins%5cMediaTracker%5cImages%5c"
  | .sounds => str "Skins%5cMediaTracker%5cSounds%5c"
  | .music => str "Skins%5cChallengeMusics%5c"
  | .mods => str "Skins%5cStadium%5cMod%5c"
  | .advert => str "Skins%5cAny%5cAdvertisement%5c"

/-- Base name of a path: the part after the last `/` (code 47), as
`os.path.basename` on POSIX. -/
def basenameOf (p : List Nat) : List Nat :=
  (p.reverse.takeWhile (fun c => !(c == 47))).reverse

/-- The cache-style name built by `process_files` for one file (source
line 152, `f-string {rev}_{base_path}{name}`): byte-reversed uppercase
MD5 hex of the content, `_` (code 95), the category subpath, and the
encoded basename. -/
def derive_name (content : List Nat) (cat : PathCategory) (base : List Nat) :
    List Nat :=
  (md5_and_reverse_bytes content).2 ++ [95] ++ PATH_MAP cat ++ encode_name base

/-- One processed file: the pair `(file, line)` appended to
`generated_files` (source line 154). -/
structure CacheEntry where
  source : List Nat
  line : List Nat
deriving DecidableEq

/-- Observable application state: the `generated_files` list, the lines
shown in the output box, and the config file's lines (`none` when the
file does not exist). -/
structure AppState where
  generated : List CacheEntry
  display : List (List Nat)
  configFile : Option (List (List Nat))
deriving DecidableEq

/-- Translation of `process_files` (source lines 139-155): for each
selected file, hash its bytes (`fs` maps a path to its content), build
the cache-style line, append the entry and show the line. -/
def process_files (fs : List Nat → List Nat) (cat : PathCategory)
    (files : List (List Nat)) (st : AppState) : AppState :=
  files.foldl (fun s file =>
    let line := derive_name (fs file) cat (basenameOf file)
    { s with
      generated := s.generated ++ [⟨file, line⟩],
      display := s.display ++ [line] }) st

/- ============================================================
   Output Writer (source lines 157-229).  Dialog results are inputs
   (the empty string models a dismissed picker, matching Python's
   falsiness test `if not ...`); performed writes and shown message
   boxes are collected in the result.  A ZIP archive is modelled as its
   list of (arcname, bytes) entries: building and later decompressing
   the container is delegated to the `zipfile` library, which the spec
   places out of scope, so decompression is the identity on that list.
   ============================================================ -/

/-- Outcome of a save action: the state afterwards, the plain files
written (path, bytes), the archives written (path, entry list), and the
message boxes shown. -/
structure SaveResult where
  state : AppState
  fileWrites : List (List Nat × List Nat)
  zipWrites : List (List Nat × List (List Nat × List Nat))
  messages : List (List Nat)
deriving DecidableEq

/-- Translation of `os.path.join(folder, line)` for the shapes the
program produces (a nonempty folder and a relative line). -/
def joinPath (dir name : List Nat) : List Nat := dir ++ [47] ++ name

/-- Directory part of a path: everything before the last `/`, as
`os.path.dirname` on the paths the program handles. -/
def dirnameOf (p : List Nat) : List Nat :=
  ((p.reverse.dropWhile (fun c => !(c == 47))).drop 1).reverse

/-- Translation of `save_single_mode` (source lines 157-175): a
dismissed directory picker aborts silently; otherwise each entry's
source bytes are copied to `folder/line`, the folder is persisted as
`save_path`, a done message is shown, and the state is cleared. -/
def save_single_mode (isDir : List Nat → Bool) (fs : List Nat → List Nat)
    (folder : List Nat) (st : AppState) : SaveResult :=
  if folder = [] then ⟨st, [], [], []⟩
  else
    { state :=
        { generated := [],
          display := [],
          configFile :=
            some (save_config_value isDir (str "save_path") folder st.configFile) },
      fileWrites := st.generated.map (fun e => (joinPath folder e.line, fs e.source)),
      zipWrites := [],
      messages := [str "Files saved successfully."] }

/-- Translation of `save_pack_mode` (source lines 177-209): a dismissed
name prompt or save dialog aborts silently; otherwise one archive
holding every entry's bytes under its generated line is written to the
chosen path, the path's directory is persisted as `save_path`, a done
message is shown, and the state is cleared. -/
def save_pack_mode (isDir : List Nat → Bool) (fs : List Nat → List Nat)
    (zipName outPath : List Nat) (st : AppState) : SaveResult :=
  if zipName = [] then ⟨st, [], [], []⟩
  else
    let archive := st.generated.map (fun e => (e.line, fs e.source))
    if outPath = [] then ⟨st, [], [], []⟩
    else
      { state :=
          { generated := [],
            display := [],
            configFile :=
              some (save_config_value isDir (str "save_path") (dirnameOf outPath)
                st.configFile) },
        fileWrites := [],
        zipWrites := [(outPath, archive)],
        messages := [str "Packed ZIP created."] }

/-- The two output modes of the mode toggle. -/
inductive OutputMode
  | single
  | pack
deriving DecidableEq

/-- Dialog results available to a save action. -/
structure Dialogs where
  folder : List Nat
  zipName : List Nat
  outPath : List Nat
deriving DecidableEq

/-- Translation of `save_output` (source lines 211-222): warn and do
nothing when no files were processed, otherwise dispatch on the mode. -/
def save_output (isDir : List Nat → Bool) (fs : List Nat → List Nat)
    (mode : OutputMode) (d : Dialogs) (st : AppState) : SaveResult :=
  if st.generated = [] then ⟨st, [], [], [str "No files processed."]⟩
  else
    match mode with
    | .single => save_single_mode isDir fs d.folder st
    | .pack => save_pack_mode isDir fs d.zipName d.outPath st

/- ============================================================
   Helper lemmas.
   ============================================================ -/

theorem pctDecodeF_nil (fuel : Nat) : pctDecodeF fuel [] = [] := by
  cases fuel <;> rfl

theorem pctDecodeF_fuel (fuel1 : Nat) : ∀ (fuel2 : Nat) (s : List Nat),
    s.length ≤ fuel1 → s.length ≤ fuel2 → pctDecodeF fuel1 s = pctDecodeF fuel2 s := by
  induction fuel1 with
  | zero =>
    intro fuel2 s h1 _
    have : s = [] := List.eq_nil_of_length_eq_zero (Nat.le_zero.mp h1)
    subst this
    rw [pctDecodeF_nil, pctDecodeF_nil]
  | succ n ih =>
    intro fuel2 s h1 h2
    rcases s with _ | ⟨c, rest⟩
    · rw [pctDecodeF_nil, pctDecodeF_nil]
    rcases fuel2 with _ | m
    · simp at h2
    simp only [List.length_cons] at h1 h2
    simp only [pctDecodeF]
    by_cases hc : c = 37
    · simp only [hc, if_true]
      rcases rest with _ | ⟨h, _ | ⟨l, rest2⟩⟩
      · rw [pctDecodeF_nil, pctDecodeF_nil]
      · simp only []
        rw [ih m [h] (by simp at h1 ⊢; omega) (by simp at h2 ⊢; omega)]
      · simp only [List.length_cons] at h1 h2
        by_cases hh : isHexDigit h = true ∧ isHexDigit l = true
        · simp only [hh, and_self, if_true]
          rw [ih m rest2 (by omega) (by omega)]
        · simp only [if_neg hh]
          rw [ih m (h :: l :: rest2) (by simp; omega) (by simp; omega)]
    · simp only [if_neg hc]
      rw [ih m rest (by omega) (by omega)]

theorem isAlwaysSafe_ne_37 {b : Nat} (h : isAlwaysSafe b = true) : b ≠ 37 := by
  intro hb
  subst hb
  simp [isAlwaysSafe] at h

theorem hexUpperDigit_spec : ∀ n < 16,
    isHexDigit (hexUpperDigit n) = true ∧ hexCharVal (hexUpperDigit n) = n := by decide

theorem pctDecode_enc_one (b : Nat) (u : List Nat) (hb : b < 256) :
    pctDecode (pctEncodeByte b ++ u) = b :: pctDecode u := by
  by_cases hs : isAlwaysSafe b = true
  · simp only [pctDecode, pctEncodeByte, hs, if_true, List.cons_append,
      List.nil_append, List.length_cons]
    simp only [pctDecodeF, if_neg (isAlwaysSafe_ne_37 hs)]
  · simp only [pctDecode, pctEncodeByte, hs, if_false, Bool.false_eq_true,
      List.cons_append, List.nil_append, List.length_cons]
    have h1 := hexUpperDigit_spec (b / 16) (by omega)
    have h2 := hexUpperDigit_spec (b % 16) (by omega)
    simp only [pctDecodeF, if_true, h1.1, h1.2, h2.1, h2.2, and_self]
    rw [pctDecodeF_fuel (u.length + 1 + 1) u.length u (by omega) (by omega)]
    congr 1
    omega

theorem pctDecode_enc (bytes : List Nat) (t : List Nat)
    (hb : ∀ b ∈ bytes, b < 256) :
    pctDecode (catMap pctEncodeByte bytes ++ t) = bytes ++ pctDecode t := by
  induction bytes with
  | nil => simp [catMap]
  | cons b bs ih =>
    simp only [catMap, List.append_assoc]
    rw [pctDecode_enc_one b _ (hb b (List.mem_cons_self b bs)),
      ih (fun x hx => hb x (List.mem_cons_of_mem b hx))]
    rfl

theorem mem_catMap {f : Nat → List Nat} {l : List Nat} {b : Nat}
    (h : b ∈ catMap f l) : ∃ c ∈ l, b ∈ f c := by
  induction l with
  | nil => simp [catMap] at h
  | cons x xs ih =>
    simp only [catMap, List.mem_append] at h
    rcases h with h | h
    · exact ⟨x, List.mem_cons_self x xs, h⟩
    · obtain ⟨c, hc, hb⟩ := ih h
      exact ⟨c, List.mem_cons_of_mem x hc, hb⟩

theorem utf8EncodeChar_lt (c : Nat) (h : c < 1114112) :
    ∀ b ∈ utf8EncodeChar c, b < 256 := by
  intro b hb
  simp only [utf8EncodeChar] at hb
  split_ifs at hb <;> simp at hb <;> omega

theorem utf8DecodeF_nil (fuel : Nat) : utf8DecodeF fuel [] = some [] := by
  cases fuel <;> rfl

theorem utf8DecodeF_fuel (fuel1 : Nat) : ∀ (fuel2 : Nat) (s : List Nat),
    s.length ≤ fuel1 → s.length ≤ fuel2 → utf8DecodeF fuel1 s = utf8DecodeF fuel2 s := by
  induction fuel1 with
  | zero =>
    intro fuel2 s h1 _
    have : s = [] := List.eq_nil_of_length_eq_zero (Nat.le_zero.mp h1)
    subst this
    rw [utf8DecodeF_nil, utf8DecodeF_nil]
  | succ n ih =>
    intro fuel2 s h1 h2
    rcases s with _ | ⟨b, rest⟩
    · rw [utf8DecodeF_nil, utf8DecodeF_nil]
    rcases fuel2 with _ | m
    · simp at h2
    simp only [List.length_cons] at h1 h2
    simp only [utf8DecodeF]
    split_ifs <;>
      first
        | rfl
        | rw [ih m _ (by (try simp only [List.length_drop]); omega)
                     (by (try simp only [List.length_drop]); omega)]

theorem utf8Decode_enc_one (c : Nat) (t : List Nat) (hs : IsScalar c) :
    utf8Decode (utf8EncodeChar c ++ t) = (utf8Decode t).map (c :: ·) := by
  obtain ⟨hlt, hsur⟩ := hs
  by_cases h1 : c < 128
  · simp only [utf8EncodeChar, if_pos h1, List.cons_append, List.nil_append,
      utf8Decode, List.length_cons]
    simp only [utf8DecodeF, if_pos h1]
  · by_cases h2 : c < 2048
    · simp only [utf8EncodeChar, if_neg h1, if_pos h2, List.cons_append,
        List.nil_append, utf8Decode, List.length_cons]
      simp only [utf8DecodeF, List.getD_cons_zero, List.length_cons,
        List.drop_succ_cons, List.drop_zero]
      rw [if_neg (by omega), if_pos (by omega),
        if_pos (by refine ⟨by omega, ?_⟩; simp [isCont]; omega),
        if_pos (by omega)]
      rw [utf8DecodeF_fuel (t.length + 1) t.length t (by omega) (by omega)]
      have hc : (192 + c / 64 - 192) * 64 + (128 + c % 64 - 128) = c := by omega
      rw [hc]
    · by_cases h3 : c < 65536
      · simp only [utf8EncodeChar, if_neg h1, if_neg h2, if_pos h3,
          List.cons_append, List.nil_append, utf8Decode, List.length_cons]
        simp only [utf8DecodeF, List.getD_cons_zero, List.getD_cons_succ,
          List.length_cons, List.drop_succ_cons, List.drop_zero]
        rw [if_neg (by omega), if_neg (by omega), if_pos (by omega),
          if_pos (by refine ⟨by omega, ?_, ?_⟩ <;> (simp [isCont]; omega)),
          if_pos (by constructor <;> omega)]
        rw [utf8DecodeF_fuel (t.length + 1 + 1) t.length t (by omega) (by omega)]
        have hc : (224 + c / 4096 - 224) * 4096 + (128 + c / 64 % 64 - 128) * 64
            + (128 + c % 64 - 128) = c := by omega
        rw [hc]
      · simp only [utf8EncodeChar, if_neg h1, if_neg h2, if_neg h3,
          List.cons_append, List.nil_append, utf8Decode, List.length_cons]
        simp only [utf8DecodeF, List.getD_cons_zero, List.getD_cons_succ,
          List.length_cons, List.drop_succ_cons, List.drop_zero]
        rw [if_neg (by omega), if_neg (by omega), if_neg (by omega),
          if_pos (by omega),
          if_pos (by refine ⟨by omega, ?_, ?_, ?_⟩ <;> (simp [isCont]; omega)),
          if_pos (by constructor <;> omega)]
        rw [utf8DecodeF_fuel (t.length + 1 + 1 + 1) t.length t (by omega) (by omega)]
        have hc : (240 + c / 262144 - 240) * 262144 + (128 + c / 4096 % 64 - 128) * 4096
            + (128 + c / 64 % 64 - 128) * 64 + (128 + c % 64 - 128) = c := by omega
        rw [hc]

theorem utf8Decode_enc (s : List Nat) (t : List Nat)
    (h : ∀ c ∈ s, IsScalar c) :
    utf8Decode (utf8Encode s ++ t) = (utf8Decode t).map (s ++ ·) := by
  induction s with
  | nil =>
    simp only [utf8Encode, catMap, List.nil_append]
    cases utf8Decode t <;> simp
  | cons c cs ih =>
    simp only [utf8Encode, catMap, List.append_assoc]
    rw [utf8Decode_enc_one c _ (h c (List.mem_cons_self c cs))]
    have ihh := ih (fun x hx => h x (List.mem_cons_of_mem c hx))
    simp only [utf8Encode] at ihh
    rw [ihh]
    cases utf8Decode t <;> simp

theorem pctDecode_nil : pctDecode [] = [] := rfl

theorem utf8Decode_nil : utf8Decode [] = some [] := rfl

theorem unquote_quote (name : List Nat) (h : ∀ c ∈ name, IsScalar c) :
    unquoteAll (quoteAll name) = some name := by
  have hbytes : ∀ b ∈ utf8Encode name, b < 256 := by
    intro b hb
    obtain ⟨c, hc, hbc⟩ := mem_catMap hb
    exact utf8EncodeChar_lt c (h c hc).1 b hbc
  have hdec : pctDecode (quoteAll name) = utf8Encode name := by
    have := pctDecode_enc (utf8Encode name) [] hbytes
    rw [List.append_nil, pctDecode_nil, List.append_nil] at this
    exact this
  unfold unquoteAll
  rw [hdec]
  have := utf8Decode_enc name [] h
  rw [List.append_nil, utf8Decode_nil] at this
  rw [this]
  simp

theorem dropWhile_ws_eq_self (l : List Nat) (h : ∀ c ∈ l, isWs c = false) :
    l.dropWhile isWs = l := by
  cases l with
  | nil => rfl
  | cons x t => simp [List.dropWhile_cons, h x (List.mem_cons_self x t)]

theorem strip_eq_self (l : List Nat) (h : ∀ c ∈ l, isWs c = false) :
    strip l = l := by
  unfold strip
  rw [dropWhile_ws_eq_self l h,
    dropWhile_ws_eq_self l.reverse (fun c hc => h c (List.mem_reverse.mp hc)),
    List.reverse_reverse]

theorem splitFirstEq_append (k v : List Nat) (hk : 61 ∉ k) :
    splitFirstEq (k ++ 61 :: v) = (k, v) := by
  induction k with
  | nil => simp [splitFirstEq]
  | cons c rest ih =>
    simp only [List.cons_append, splitFirstEq, List.append_eq]
    have hc : c ≠ 61 := fun h => hk (h ▸ List.mem_cons_self c rest)
    rw [if_neg hc, ih (fun h => hk (List.mem_cons_of_mem c h))]

theorem loadStep_line (isDir : List Nat → Bool)
    (cfg : List (List Nat × Option (List Nat))) (k v : List Nat)
    (hk61 : 61 ∉ k) (hkw : ∀ c ∈ k, isWs c = false)
    (hvw : ∀ c ∈ v, isWs c = false) :
    loadStep isDir cfg (k ++ 61 :: v) =
      if isDir v then dictSet k (some v) cfg else cfg := by
  have hmem : 61 ∈ k ++ 61 :: v := by simp
  have hws : ∀ c ∈ k ++ 61 :: v, isWs c = false := by
    intro c hc
    simp only [List.mem_append, List.mem_cons] at hc
    rcases hc with hc | hc | hc
    · exact hkw c hc
    · subst hc; rfl
    · exact hvw c hc
  unfold loadStep
  rw [if_pos hmem, strip_eq_self _ hws, splitFirstEq_append k v hk61]

theorem getConfig_fst (x y : Option (List Nat)) :
    getConfig [(str "save_path", x), (str "cache_path", y)] (str "save_path") = x := by
  simp [getConfig, List.find?]

theorem getConfig_snd (x y : Option (List Nat)) :
    getConfig [(str "save_path", x), (str "cache_path", y)] (str "cache_path") = y := by
  simp [getConfig, List.find?,
    (by decide : (str "save_path" == str "cache_path") = false)]

/- ============================================================
   Claims.
   ============================================================ -/

set_option maxRecDepth 8192 in
/-- C1 (counterexample): the claim's byte-level reversal value for the
empty byte string is wrong.  The code's reversal step
(`bytes.fromhex(md5)[::-1].hex().upper()`) does not produce
`E98427ECF8990080E9B2008FD98C1DD4` on the empty input. -/
theorem md5_reverse_empty_cex :
    (md5_and_reverse_bytes []).2 ≠ str "E98427ECF8990080E9B2008FD98C1DD4" := by
  decide

set_option maxRecDepth 8192 in
/-- C1 (amended): for the empty byte string, the hash step produces the
uppercase MD5 hex digest `D41D8CD98F00B204E9800998ECF8427E`, and the
byte-level reversal step produces `7E42F8EC980980E904B2008FD98C1DD4`
(reverse the 16 underlying bytes, not the 32 hex characters). -/
theorem md5_reverse_empty :
    md5_and_reverse_bytes [] =
      (str "D41D8CD98F00B204E9800998ECF8427E",
       str "7E42F8EC980980E904B2008FD98C1DD4") := by
  decide

/-- C2: for every input file and selected category, the derived name
recorded by `process_files` is exactly
`<reversed-hash>_<category-subpath><encoded-basename>`: the byte-reversed
uppercase MD5 hex digest of the file's bytes, an underscore (code 95),
the fixed `PATH_MAP` string of the category (in which every backslash
is pre-encoded as `%5c`, so no backslash byte occurs), and the (possibly
percent-encoded) base name. -/
theorem process_files_lines (fs : List Nat → List Nat) (cat : PathCategory)
    (files : List (List Nat)) (st : AppState) :
    (92 ∉ PATH_MAP cat) ∧
    (process_files fs cat files st).generated =
      st.generated ++ files.map (fun f =>
        ⟨f, (md5_and_reverse_bytes (fs f)).2 ++ [95] ++ PATH_MAP cat
             ++ encode_name (basenameOf f)⟩) := by
  constructor
  · cases cat <;> decide
  induction files generalizing st with
  | nil => simp [process_files]
  | cons f rest ih =>
    simp only [process_files, List.foldl_cons] at ih ⊢
    rw [ih]
    simp [derive_name, List.append_assoc]

/-- C3 (counterexample): the tab character (code 9) lies outside the
7-bit printable range, yet `encode_name` returns the name `[9]`
unchanged instead of percent-encoding it: the trigger in the code is
`ord(c) > 127`, not the printable range. -/
theorem encode_name_printable_cex :
    ¬(32 ≤ 9 ∧ 9 ≤ 126) ∧ encode_name [9] = [9] ∧ quoteAll [9] ≠ [9] := by
  decide

/-- C3 (amended): `encode_name` percent-encodes the whole name (reserved
characters included) if and only if the name contains at least one
character with code point above 127, and otherwise returns the name
unchanged. -/
theorem encode_name_trigger (name : List Nat) :
    ((∃ c ∈ name, 127 < c) → encode_name name = quoteAll name) ∧
    ((∀ c ∈ name, c ≤ 127) → encode_name name = name) := by
  constructor
  · rintro ⟨c, hc, h127⟩
    have hany : name.any (fun c => decide (127 < c)) = true :=
      List.any_eq_true.mpr ⟨c, hc, by simpa⟩
    simp [encode_name, hany]
  · intro hall
    have hfa : ∀ x ∈ name, ¬(fun c => decide (127 < c)) x = true := fun x hx => by
      have := hall x hx
      simp only [decide_eq_true_eq]
      omega
    simp [encode_name, List.any_eq_false.mpr hfa]

/-- C3 (witness): a name with a non-ASCII character is quoted, an ASCII
name is unchanged. -/
theorem encode_name_trigger_witness :
    encode_name [233] = quoteAll [233] ∧ encode_name [97] = [97] :=
  ⟨(encode_name_trigger [233]).1 ⟨233, by decide, by decide⟩,
   (encode_name_trigger [97]).2 (by decide)⟩

/-- C4: a basename of ASCII printable characters is passed through
unchanged, and for a basename containing a non-ASCII character the
percent-encoding is lossless: standard URL-decoding (percent-decoding
followed by UTF-8 decoding) recovers the original basename exactly. -/
theorem encode_name_lossless (name : List Nat) (hs : ∀ c ∈ name, IsScalar c) :
    ((∀ c ∈ name, 32 ≤ c ∧ c ≤ 126) → encode_name name = name) ∧
    ((∃ c ∈ name, 127 < c) → unquoteAll (encode_name name) = some name) := by
  constructor
  · intro hp
    have hfa : ∀ x ∈ name, ¬(fun c => decide (127 < c)) x = true := fun x hx => by
      have := hp x hx
      simp only [decide_eq_true_eq]
      omega
    simp [encode_name, List.any_eq_false.mpr hfa]
  · rintro ⟨c, hc, h127⟩
    have hany : name.any (fun c => decide (127 < c)) = true :=
      List.any_eq_true.mpr ⟨c, hc, by simpa⟩
    simp only [encode_name, hany, if_true]
    exact unquote_quote name hs

/-- C4 (witness): concrete instances of both halves. -/
theorem encode_name_lossless_witness :
    encode_name [97] = [97] ∧ unquoteAll (encode_name [233]) = some [233] :=
  ⟨(encode_name_lossless [97] (by decide)).1 (by decide),
   (encode_name_lossless [233] (by decide)).2 ⟨233, by decide, by decide⟩⟩

/-- C5: for a non-empty entry sequence and non-dismissed prompts, pack
mode writes exactly one archive, at the user-chosen path (the container
is not renamed through the Naming Engine), whose entries are exactly one
per `CacheEntry` — stored under that entry's derived name with the
source file's bytes as content — and writes no individual files. -/
theorem save_pack_mode_spec (isDir : List Nat → Bool) (fs : List Nat → List Nat)
    (zipName outPath : List Nat) (st : AppState)
    (_hg : st.generated ≠ []) (hz : zipName ≠ []) (ho : outPath ≠ []) :
    (save_pack_mode isDir fs zipName outPath st).zipWrites =
      [(outPath, st.generated.map (fun e => (e.line, fs e.source)))] ∧
    (save_pack_mode isDir fs zipName outPath st).fileWrites = [] := by
  simp [save_pack_mode, hz, ho]

/-- C5 (witness): one entry, concrete archive. -/
theorem save_pack_mode_spec_witness :
    (save_pack_mode (fun _ => true) (fun _ => [1]) [122] [111]
        ⟨[⟨[97], [98]⟩], [[98]], none⟩).zipWrites =
      [([111], [([98], [1])])] ∧
    (save_pack_mode (fun _ => true) (fun _ => [1]) [122] [111]
        ⟨[⟨[97], [98]⟩], [[98]], none⟩).fileWrites = [] :=
  save_pack_mode_spec (fun _ => true) (fun _ => [1]) [122] [111]
    ⟨[⟨[97], [98]⟩], [[98]], none⟩ (by decide) (by decide) (by decide)

/-- C6: a save requested while the entry sequence is empty reports the
warning and is otherwise a no-op: no file or archive writes, and the
state (entries, display, config file) is returned unchanged. -/
theorem save_output_empty (isDir : List Nat → Bool) (fs : List Nat → List Nat)
    (mode : OutputMode) (d : Dialogs) (st : AppState)
    (h : st.generated = []) :
    save_output isDir fs mode d st =
      ⟨st, [], [], [str "No files processed."]⟩ := by
  simp [save_output, h]

/-- C6 (witness): the empty state at concrete inputs. -/
theorem save_output_empty_witness :
    save_output (fun _ => false) (fun _ => []) OutputMode.single ⟨[], [], []⟩
        ⟨[], [], none⟩ =
      ⟨⟨[], [], none⟩, [], [], [str "No files processed."]⟩ :=
  save_output_empty (fun _ => false) (fun _ => []) OutputMode.single
    ⟨[], [], []⟩ ⟨[], [], none⟩ rfl

/-- C7: a dismissed picker (empty dialog result) in either mode aborts
the save silently: nothing is written, no message is shown, and the
whole state — entries, display, and the persisted config — is returned
unchanged. -/
theorem save_cancelled_prompt (isDir : List Nat → Bool) (fs : List Nat → List Nat)
    (folder zipName outPath : List Nat) (st : AppState) :
    (folder = [] → save_single_mode isDir fs folder st = ⟨st, [], [], []⟩) ∧
    (zipName = [] → save_pack_mode isDir fs zipName outPath st = ⟨st, [], [], []⟩) ∧
    (outPath = [] → save_pack_mode isDir fs zipName outPath st = ⟨st, [], [], []⟩) := by
  refine ⟨fun h => by simp [save_single_mode, h],
    fun h => by simp [save_pack_mode, h], fun h => ?_⟩
  by_cases hz : zipName = []
  · simp [save_pack_mode, hz]
  · simp [save_pack_mode, hz, h]

/-- C7 (witness): each of the three dismissal points at concrete inputs. -/
theorem save_cancelled_prompt_witness :
    save_single_mode (fun _ => true) (fun _ => []) []
        ⟨[⟨[97], [98]⟩], [[98]], none⟩ =
      ⟨⟨[⟨[97], [98]⟩], [[98]], none⟩, [], [], []⟩ ∧
    save_pack_mode (fun _ => true) (fun _ => []) [] [111]
        ⟨[⟨[97], [98]⟩], [[98]], none⟩ =
      ⟨⟨[⟨[97], [98]⟩], [[98]], none⟩, [], [], []⟩ ∧
    save_pack_mode (fun _ => true) (fun _ => []) [122] []
        ⟨[⟨[97], [98]⟩], [[98]], none⟩ =
      ⟨⟨[⟨[97], [98]⟩], [[98]], none⟩, [], [], []⟩ :=
  ⟨(save_cancelled_prompt (fun _ => true) (fun _ => []) [] [122] [111]
      ⟨[⟨[97], [98]⟩], [[98]], none⟩).1 rfl,
   (save_cancelled_prompt (fun _ => true) (fun _ => []) [47] [] [111]
      ⟨[⟨[97], [98]⟩], [[98]], none⟩).2.1 rfl,
   (save_cancelled_prompt (fun _ => true) (fun _ => []) [47] [122] []
      ⟨[⟨[97], [98]⟩], [[98]], none⟩).2.2 rfl⟩

/-- C9: name derivation is deterministic — equal file bytes, equal
category and equal basename always give the identical derived string. -/
theorem derive_name_deterministic (b1 b2 : List Nat) (c1 c2 : PathCategory)
    (n1 n2 : List Nat) (hb : b1 = b2) (hc : c1 = c2) (hn : n1 = n2) :
    derive_name b1 c1 n1 = derive_name b2 c2 n2 := by
  rw [hb, hc, hn]

/-- C9 (witness): two runs on the same concrete input agree. -/
theorem derive_name_deterministic_witness :
    derive_name [0] PathCategory.mods [97] = derive_name [0] PathCategory.mods [97] :=
  derive_name_deterministic [0] [0] PathCategory.mods PathCategory.mods
    [97] [97] rfl rfl rfl

/-- C10: `encode_name` is not injective — the name `é` (code point 233)
and the distinct all-ASCII name `%C3%A9` encode to the same string, so
two files with identical bytes and these basenames get identical derived
names. -/
theorem encode_name_collision :
    [233] ≠ str "%C3%A9" ∧
    encode_name [233] = encode_name (str "%C3%A9") ∧
    derive_name [97] PathCategory.images [233] =
      derive_name [97] PathCategory.images (str "%C3%A9") := by
  have he : encode_name [233] = encode_name (str "%C3%A9") := by decide
  exact ⟨by decide, he, by unfold derive_name; rw [he]⟩

/-- C8: saving a value for `save_path` and then one for `cache_path`
leaves both pairs in the store; on load, an entry whose value is no
longer a valid directory is dropped while the rest are kept, so removing
only the directory behind `save_path` makes a load drop only that key.
Values are assumed whitespace-free (so the line format is preserved). -/
theorem config_roundtrip (isDir isDir2 : List Nat → Bool) (a b : List Nat)
    (ha : isDir a = true) (hb : isDir b = true)
    (hane : a ≠ []) (hbne : b ≠ [])
    (haw : ∀ c ∈ a, isWs c = false) (hbw : ∀ c ∈ b, isWs c = false)
    (h2a : isDir2 a = false) (h2b : isDir2 b = true) :
    getConfig (load_config isDir (some (save_config_value isDir (str "cache_path") b
        (some (save_config_value isDir (str "save_path") a none)))))
      (str "save_path") = some a ∧
    getConfig (load_config isDir (some (save_config_value isDir (str "cache_path") b
        (some (save_config_value isDir (str "save_path") a none)))))
      (str "cache_path") = some b ∧
    getConfig (load_config isDir2 (some (save_config_value isDir (str "cache_path") b
        (some (save_config_value isDir (str "save_path") a none)))))
      (str "save_path") = none ∧
    getConfig (load_config isDir2 (some (save_config_value isDir (str "cache_path") b
        (some (save_config_value isDir (str "save_path") a none)))))
      (str "cache_path") = some b := by
  have hsp61 : (61 : Nat) ∉ str "save_path" := by decide
  have hcp61 : (61 : Nat) ∉ str "cache_path" := by decide
  have hspw : ∀ c ∈ str "save_path", isWs c = false := by decide
  have hcpw : ∀ c ∈ str "cache_path", isWs c = false := by decide
  have hkne : str "save_path" ≠ str "cache_path" := by decide
  have hf1 : save_config_value isDir (str "save_path") a none
      = [str "save_path" ++ 61 :: a] := by
    simp [save_config_value, load_config, dictSet, initConfig, configLines, hane]
  have s1 : loadStep isDir initConfig (str "save_path" ++ 61 :: a)
      = [(str "save_path", some a), (str "cache_path", none)] := by
    rw [loadStep_line isDir initConfig _ a hsp61 hspw haw, ha, if_pos rfl]
    simp [dictSet, initConfig]
  have hload1 : load_config isDir (some [str "save_path" ++ 61 :: a])
      = [(str "save_path", some a), (str "cache_path", none)] := by
    simp only [load_config, List.foldl_cons, List.foldl_nil, s1]
  have hf2 : save_config_value isDir (str "cache_path") b
      (some [str "save_path" ++ 61 :: a])
      = [str "save_path" ++ 61 :: a, str "cache_path" ++ 61 :: b] := by
    simp only [save_config_value, hload1]
    simp [dictSet, hkne, configLines, hane, hbne]
  have s2 : loadStep isDir [(str "save_path", some a), (str "cache_path", none)]
      (str "cache_path" ++ 61 :: b)
      = [(str "save_path", some a), (str "cache_path", some b)] := by
    rw [loadStep_line isDir _ _ b hcp61 hcpw hbw, hb, if_pos rfl]
    simp [dictSet, hkne]
  have hload2 : load_config isDir
      (some [str "save_path" ++ 61 :: a, str "cache_path" ++ 61 :: b])
      = [(str "save_path", some a), (str "cache_path", some b)] := by
    simp only [load_config, List.foldl_cons, List.foldl_nil, s1, s2]
  have s1' : loadStep isDir2 initConfig (str "save_path" ++ 61 :: a)
      = initConfig := by
    rw [loadStep_line isDir2 initConfig _ a hsp61 hspw haw, h2a]
    simp
  have s2' : loadStep isDir2 initConfig (str "cache_path" ++ 61 :: b)
      = [(str "save_path", none), (str "cache_path", some b)] := by
    rw [loadStep_line isDir2 initConfig _ b hcp61 hcpw hbw, h2b, if_pos rfl]
    simp [dictSet, initConfig, hkne]
  have hload2' : load_config isDir2
      (some [str "save_path" ++ 61 :: a, str "cache_path" ++ 61 :: b])
      = [(str "save_path", none), (str "cache_path", some b)] := by
    simp only [load_config, List.foldl_cons, List.foldl_nil, s1', s2']
  rw [hf1, hf2, hload2, hload2']
  exact ⟨getConfig_fst _ _, getConfig_snd _ _, getConfig_fst _ _, getConfig_snd _ _⟩

/-- C8 (witness): two concrete directories, the first later removed. -/
theorem config_roundtrip_witness :
    getConfig (load_config (fun d => d == [100] || d == [101])
        (some (save_config_value (fun d => d == [100] || d == [101])
          (str "cache_path") [101]
          (some (save_config_value (fun d => d == [100] || d == [101])
            (str "save_path") [100] none)))))
      (str "save_path") = some [100] ∧
    getConfig (load_config (fun d => d == [100] || d == [101])
        (some (save_config_value (fun d => d == [100] || d == [101])
          (str "cache_path") [101]
          (some (save_config_value (fun d => d == [100] || d == [101])
            (str "save_path") [100] none)))))
      (str "cache_path") = some [101] ∧
    getConfig (load_config (fun d => d == [101])
        (some (save_config_value (fun d => d == [100] || d == [101])
          (str "cache_path") [101]
          (some (save_config_value (fun d => d == [100] || d == [101])
            (str "save_path") [100] none)))))
      (str "save_path") = none ∧
    getConfig (load_config (fun d => d == [101])
        (some (save_config_value (fun d => d == [100] || d == [101])
          (str "cache_path") [101]
          (some (save_config_value (fun d => d == [100] || d == [101])
            (str "save_path") [100] none)))))
      (str "cache_path") = some [101] :=
  config_roundtrip (fun d => d == [100] || d == [101]) (fun d => d == [101])
    [100] [101] (by decide) (by decide) (by decide) (by decide)
    (by decide) (by decide) (by decide) (by decide)
